import Mathlib

/-!
Verification of the AHCI controller-management core of HydrOS
(`src/drivers/ahci.c`) against its natural-language specification.

The C file is shallowly embedded below.  Machine integers are modelled as
`Nat` with explicit `% 2^32` where a 32-bit store could overflow; the
memory-mapped adapter state is modelled at three levels of detail,
matching what each group of properties needs:

* a pure register view (`HbaState`) for `check_type` / `probe_port`,
  which only ever read registers;
* a read-oracle view for the polling loops of `start_cmd` / `stop_cmd`,
  where each volatile read of the port command register is answered by a
  sequence `r : Nat → Nat` supplied by the (hardware) environment;
* a flat dword-granular memory `Mem : Nat → Nat` for `port_rebase`,
  whose effect depends on raw pointer arithmetic (`memset` on field
  addresses, reading back a register it has itself overwritten).

The struct layouts (`hba_mem_t`, `hba_port_t`, `hba_cmd_header_t`) live in
`drivers/ahci.h`, which is not part of the sources; they are modelled from
the spec where needed (see `portAddr` and the command-header offsets).
-/

/-! ## Constants from src/drivers/ahci.c (lines 7-21) -/

def SATA_SIG_ATA : Nat := 0x00000101

def SATA_SIG_ATAPI : Nat := 0xEB140101

def SATA_SIG_SEMB : Nat := 0xC33C0101

def SATA_SIG_PM : Nat := 0x96690101

def AHCI_DEV_NULL : Nat := 0

def AHCI_DEV_SATA : Nat := 1

def AHCI_DEV_SEMB : Nat := 2

def AHCI_DEV_PM : Nat := 3

def AHCI_DEV_SATAPI : Nat := 4

def HBA_PORT_IPM_ACTIVE : Nat := 1

def HBA_PORT_DET_PRESENT : Nat := 3

def AHCI_BASE : Nat := 0x400000

/-! ## DeviceClassifier: `check_type` (ahci.c lines 23-46) -/

/-- Embedding of `check_type`.  The C function reads `port->ssts` and
(on the present-and-active path) `port->sig`; here those two register
values are the arguments. -/
def check_type (ssts sig : Nat) : Nat :=
  let ipm := (ssts >>> 8) &&& 0x0F
  let det := ssts &&& 0x0F
  if det ≠ HBA_PORT_DET_PRESENT then AHCI_DEV_NULL
  else if ipm ≠ HBA_PORT_IPM_ACTIVE then AHCI_DEV_NULL
  else if sig = SATA_SIG_ATAPI then AHCI_DEV_SATAPI
  else if sig = SATA_SIG_SEMB then AHCI_DEV_SEMB
  else if sig = SATA_SIG_PM then AHCI_DEV_PM
  else AHCI_DEV_SATA

/-- C4: `check_type` depends only on the detection field (status bits 0-3),
the power-management field (status bits 8-11) and the signature; with
detection ≠ 3 or power ≠ 1 it returns Absent (`AHCI_DEV_NULL`) regardless
of the signature, and otherwise it classifies by the signature constants,
every unmatched signature (the plain SATA constant included) giving
`AHCI_DEV_SATA`. -/
theorem check_type_spec (ssts sig : Nat) :
    (∀ ssts2 : Nat, ssts2 &&& 0x0F = ssts &&& 0x0F →
        (ssts2 >>> 8) &&& 0x0F = (ssts >>> 8) &&& 0x0F →
        check_type ssts2 sig = check_type ssts sig) ∧
    (ssts &&& 0x0F ≠ HBA_PORT_DET_PRESENT ∨
        (ssts >>> 8) &&& 0x0F ≠ HBA_PORT_IPM_ACTIVE →
      check_type ssts sig = AHCI_DEV_NULL) ∧
    (ssts &&& 0x0F = HBA_PORT_DET_PRESENT →
        (ssts >>> 8) &&& 0x0F = HBA_PORT_IPM_ACTIVE →
      (check_type ssts sig = AHCI_DEV_SATAPI ↔ sig = SATA_SIG_ATAPI) ∧
      (check_type ssts sig = AHCI_DEV_SEMB ↔ sig = SATA_SIG_SEMB) ∧
      (check_type ssts sig = AHCI_DEV_PM ↔ sig = SATA_SIG_PM) ∧
      (sig ≠ SATA_SIG_ATAPI → sig ≠ SATA_SIG_SEMB → sig ≠ SATA_SIG_PM →
        check_type ssts sig = AHCI_DEV_SATA) ∧
      check_type ssts SATA_SIG_ATA = AHCI_DEV_SATA) := by
  unfold check_type
  refine ⟨?_, ?_, ?_⟩
  · intro ssts2 hdet hipm
    simp only [hdet, hipm]
  · intro h
    rcases h with h | h <;> simp [h]
  · intro hdet hipm
    simp only [hdet, hipm, HBA_PORT_DET_PRESENT, HBA_PORT_IPM_ACTIVE,
      if_neg (by decide : ¬(3 : Nat) ≠ 3), if_neg (by decide : ¬(1 : Nat) ≠ 1)]
    refine ⟨?_, ?_, ?_, ?_, ?_⟩
    · constructor
      · intro h
        by_contra hne
        rw [if_neg hne] at h
        by_cases h2 : sig = SATA_SIG_SEMB
        · rw [if_pos h2] at h; exact absurd h (by decide)
        · rw [if_neg h2] at h
          by_cases h3 : sig = SATA_SIG_PM
          · rw [if_pos h3] at h; exact absurd h (by decide)
          · rw [if_neg h3] at h; exact absurd h (by decide)
      · intro h; rw [if_pos h]
    · constructor
      · intro h
        by_contra hne
        by_cases h1 : sig = SATA_SIG_ATAPI
        · rw [if_pos h1] at h; exact absurd h (by decide)
        · rw [if_neg h1, if_neg hne] at h
          by_cases h3 : sig = SATA_SIG_PM
          · rw [if_pos h3] at h; exact absurd h (by decide)
          · rw [if_neg h3] at h; exact absurd h (by decide)
      · intro h
        rw [if_neg (by rw [h]; decide), if_pos h]
    · constructor
      · intro h
        by_contra hne
        by_cases h1 : sig = SATA_SIG_ATAPI
        · rw [if_pos h1] at h; exact absurd h (by decide)
        · rw [if_neg h1] at h
          by_cases h2 : sig = SATA_SIG_SEMB
          · rw [if_pos h2] at h; exact absurd h (by decide)
          · rw [if_neg h2, if_neg hne] at h; exact absurd h (by decide)
      · intro h
        rw [if_neg (by rw [h]; decide), if_neg (by rw [h]; decide), if_pos h]
    · intro h1 h2 h3
      rw [if_neg h1, if_neg h2, if_neg h3]
    · decide

/-- Closed instance of `check_type_spec`: a present, active port with the
plain SATA signature classifies as a SATA drive. -/
theorem check_type_spec_witness : check_type 0x103 SATA_SIG_ATA = AHCI_DEV_SATA :=
  ((check_type_spec 0x103 SATA_SIG_ATA).2.2 (by decide) (by decide)).2.2.2.1
    (by decide) (by decide) (by decide)

/-! ## PortEnumerator: `probe_port` (ahci.c lines 48-73)

`probe_port` only ever reads registers; it is embedded over a pure
register view of the adapter together with a trace of the volatile
accesses and `kprintf` calls it performs.  The trace has `writeReg`
events available so that the frame property "no register is written" is
a statement about the embedding, not about the event vocabulary. -/

/-- Per-port registers read by the enumeration path. -/
structure PortRegs where
  ssts : Nat
  sig : Nat

/-- Adapter register view used by `probe_port`: the ports-implemented
register and the 32-entry port array (total function; the code only
indexes 0..31). -/
structure HbaState where
  pi : Nat
  ports : Nat → PortRegs

/-- One volatile access or log emission performed by the driver. -/
inductive AhciEvent where
  | readPI : AhciEvent
  | readSSTS : Nat → AhciEvent
  | readSIG : Nat → AhciEvent
  | logMsg : String → AhciEvent
  | writeReg : Nat → Nat → AhciEvent
  deriving DecidableEq

/-- `check_type` on port `i`, together with its register-read trace:
`ssts` is read unconditionally; `sig` is read only on the
present-and-active path (the C `switch` is only reached there). -/
def check_typeT (i : Nat) (p : PortRegs) : Nat × List AhciEvent :=
  let det := p.ssts &&& 0x0F
  let ipm := (p.ssts >>> 8) &&& 0x0F
  (check_type p.ssts p.sig,
    if det ≠ HBA_PORT_DET_PRESENT ∨ ipm ≠ HBA_PORT_IPM_ACTIVE then
      [AhciEvent.readSSTS i]
    else
      [AhciEvent.readSSTS i, AhciEvent.readSIG i])

/-- The `kprintf` chain of ahci.c lines 62-69 for classification `dt`
of port `i` (no output when `dt` matches none of the four device
kinds, i.e. for `AHCI_DEV_NULL`). -/
def logLine (dt i : Nat) : List AhciEvent :=
  if dt = AHCI_DEV_SATA then
    [AhciEvent.logMsg ("[AHCI] SATA drive found, port = " ++ toString i ++ "\n")]
  else if dt = AHCI_DEV_SATAPI then
    [AhciEvent.logMsg ("[AHCI] SATAPI drive found, port = " ++ toString i ++ "\n")]
  else if dt = AHCI_DEV_SEMB then
    [AhciEvent.logMsg ("[AHCI] SEMB drive found, port = " ++ toString i ++ "\n")]
  else if dt = AHCI_DEV_PM then
    [AhciEvent.logMsg ("[AHCI] PM drive found, port = " ++ toString i ++ "\n")]
  else []

/-- The `for` loop of `probe_port`: `pi` is the shifted copy of the
ports-implemented register, `i` the loop counter, `fuel` the remaining
iterations (32 at the top). -/
def probePortIter (s : HbaState) (pi i : Nat) : Nat → List AhciEvent
  | 0 => []
  | fuel + 1 =>
    (if pi &&& 1 ≠ 0 then
      let r := check_typeT i (s.ports i)
      r.2 ++ logLine r.1 i
    else []) ++ probePortIter s (pi >>> 1) (i + 1) fuel

/-- Embedding of `probe_port`: one read of the ports-implemented
register, then the 32-iteration bit-test loop. -/
def probe_port (s : HbaState) : List AhciEvent :=
  AhciEvent.readPI :: probePortIter s s.pi 0 32

/-- Classification events (`ssts` reads): the ports on which
`check_type` was invoked, in trace order. -/
def eventClassified : AhciEvent → Option Nat
  | AhciEvent.readSSTS i => some i
  | _ => none

def eventLog : AhciEvent → Option String
  | AhciEvent.logMsg m => some m
  | _ => none

def classifiedPorts (t : List AhciEvent) : List Nat :=
  t.filterMap eventClassified

def logLines (t : List AhciEvent) : List String :=
  t.filterMap eventLog

def isWriteEvent : AhciEvent → Bool
  | AhciEvent.writeReg _ _ => true
  | _ => false

def isReadPIEvent : AhciEvent → Bool
  | AhciEvent.readPI => true
  | _ => false

def writeEvents (t : List AhciEvent) : List AhciEvent :=
  t.filter isWriteEvent

def readPICount (t : List AhciEvent) : Nat :=
  (t.filter isReadPIEvent).length

/-- The device-kind word the log message of `logLine` uses for each
non-Absent classification. -/
def deviceName (dt : Nat) : String :=
  if dt = AHCI_DEV_SATA then "SATA"
  else if dt = AHCI_DEV_SATAPI then "SATAPI"
  else if dt = AHCI_DEV_SEMB then "SEMB"
  else if dt = AHCI_DEV_PM then "PM"
  else ""

/-! ### Trace helper lemmas for the enumeration loop -/

theorem and_one_testBit (pi : Nat) : (pi &&& 1 ≠ 0) ↔ pi.testBit 0 = true := by
  rw [Nat.and_one_is_mod, Nat.testBit_zero]
  simp only [decide_eq_true_eq]
  omega

theorem classifiedPorts_visit (i : Nat) (p : PortRegs) :
    classifiedPorts ((check_typeT i p).2 ++ logLine (check_typeT i p).1 i) = [i] := by
  rw [classifiedPorts, List.filterMap_append]
  have h1 : List.filterMap eventClassified (check_typeT i p).2 = [i] := by
    simp only [check_typeT]
    split <;> rfl
  have h2 : List.filterMap eventClassified (logLine (check_typeT i p).1 i) = [] := by
    rw [logLine]
    split_ifs <;> rfl
  rw [h1, h2, List.append_nil]

theorem check_type_range (ssts sig : Nat) :
    check_type ssts sig = 0 ∨ check_type ssts sig = 1 ∨ check_type ssts sig = 2 ∨
      check_type ssts sig = 3 ∨ check_type ssts sig = 4 := by
  rw [check_type]
  split_ifs <;> simp [AHCI_DEV_NULL, AHCI_DEV_SATA, AHCI_DEV_SEMB, AHCI_DEV_PM,
    AHCI_DEV_SATAPI]

theorem logLines_logLine (dt i : Nat)
    (h : dt = 0 ∨ dt = 1 ∨ dt = 2 ∨ dt = 3 ∨ dt = 4) :
    logLines (logLine dt i) =
      if dt = AHCI_DEV_NULL then []
      else ["[AHCI] " ++ deviceName dt ++ " drive found, port = " ++ toString i ++ "\n"] := by
  rcases h with h | h | h | h | h <;> subst h <;> rfl

theorem logLines_visit (i : Nat) (p : PortRegs) :
    logLines ((check_typeT i p).2 ++ logLine (check_typeT i p).1 i) =
      if check_type p.ssts p.sig = AHCI_DEV_NULL then []
      else ["[AHCI] " ++ deviceName (check_type p.ssts p.sig) ++
        " drive found, port = " ++ toString i ++ "\n"] := by
  rw [logLines, List.filterMap_append]
  have h1 : List.filterMap eventLog (check_typeT i p).2 = [] := by
    simp only [check_typeT]
    split <;> rfl
  have h2 : (check_typeT i p).1 = check_type p.ssts p.sig := rfl
  rw [h1, List.nil_append]
  rw [show List.filterMap eventLog (logLine (check_typeT i p).1 i) =
      logLines (logLine (check_type p.ssts p.sig) i) from by rw [← h2]; rfl]
  exact logLines_logLine _ i (check_type_range p.ssts p.sig)

theorem probePortIter_step (s : HbaState) (pi i0 fuel : Nat) :
    probePortIter s pi i0 (fuel + 1) =
      (if pi &&& 1 ≠ 0 then
        (check_typeT i0 (s.ports i0)).2 ++ logLine (check_typeT i0 (s.ports i0)).1 i0
      else []) ++ probePortIter s (pi >>> 1) (i0 + 1) fuel := rfl

theorem probePortIter_classified (s : HbaState) :
    ∀ fuel pi i0 : Nat,
      classifiedPorts (probePortIter s pi i0 fuel) =
        ((List.range fuel).filter (fun k => pi.testBit k)).map (fun k => i0 + k) := by
  intro fuel
  induction fuel with
  | zero => intro pi i0; rfl
  | succ fuel ih =>
    intro pi i0
    rw [probePortIter_step, show classifiedPorts
        ((if pi &&& 1 ≠ 0 then
            (check_typeT i0 (s.ports i0)).2 ++ logLine (check_typeT i0 (s.ports i0)).1 i0
          else []) ++ probePortIter s (pi >>> 1) (i0 + 1) fuel) =
        classifiedPorts (if pi &&& 1 ≠ 0 then
            (check_typeT i0 (s.ports i0)).2 ++ logLine (check_typeT i0 (s.ports i0)).1 i0
          else []) ++ classifiedPorts (probePortIter s (pi >>> 1) (i0 + 1) fuel)
      from List.filterMap_append _ _ _]
    rw [ih (pi >>> 1) (i0 + 1)]
    rw [List.range_succ_eq_map, List.filter_cons]
    have hshift : (fun k => pi.testBit k) ∘ Nat.succ = fun k => (pi >>> 1).testBit k := by
      funext k
      simp only [Function.comp_apply, Nat.testBit_succ, Nat.shiftRight_one]
    by_cases hb : pi.testBit 0
    · rw [if_pos ((and_one_testBit pi).2 hb), classifiedPorts_visit, if_pos hb]
      simp only [List.map_cons, List.filter_map, hshift, List.map_map]
      rw [List.singleton_append,
        show ((fun k => i0 + k) ∘ Nat.succ) = fun k => i0 + 1 + k from
          funext fun k => by simp only [Function.comp_apply, Nat.succ_eq_add_one]; omega]
      simp
    · rw [if_neg (fun hc => hb ((and_one_testBit pi).1 hc)),
        if_neg (by simp [hb]), show classifiedPorts [] = [] from rfl, List.nil_append]
      simp only [List.filter_map, hshift, List.map_map]
      rw [show ((fun k => i0 + k) ∘ Nat.succ) = fun k => i0 + 1 + k from
        funext fun k => by simp only [Function.comp_apply, Nat.succ_eq_add_one]; omega]

theorem logLines_append (a b : List AhciEvent) :
    logLines (a ++ b) = logLines a ++ logLines b :=
  List.filterMap_append _ _ _

theorem testBit_comp_succ (pi : Nat) :
    ((fun k => pi.testBit k) ∘ Nat.succ) = fun k => (pi >>> 1).testBit k := by
  funext k
  simp only [Function.comp_apply, Nat.testBit_succ, Nat.shiftRight_one]

theorem probePortIter_logs (s : HbaState) :
    ∀ fuel pi i0 : Nat,
      logLines (probePortIter s pi i0 fuel) =
        ((List.range fuel).filter (fun k => pi.testBit k)).filterMap (fun k =>
          if check_type (s.ports (i0 + k)).ssts (s.ports (i0 + k)).sig = AHCI_DEV_NULL then
            none
          else
            some ("[AHCI] " ++
              deviceName (check_type (s.ports (i0 + k)).ssts (s.ports (i0 + k)).sig) ++
              " drive found, port = " ++ toString (i0 + k) ++ "\n")) := by
  intro fuel
  induction fuel with
  | zero => intro pi i0; rfl
  | succ fuel ih =>
    intro pi i0
    rw [probePortIter_step, logLines_append, ih (pi >>> 1) (i0 + 1)]
    rw [List.range_succ_eq_map, List.filter_cons]
    have hcomp : ((fun k =>
        if check_type (s.ports (i0 + k)).ssts (s.ports (i0 + k)).sig = AHCI_DEV_NULL then
          none
        else
          some ("[AHCI] " ++
            deviceName (check_type (s.ports (i0 + k)).ssts (s.ports (i0 + k)).sig) ++
            " drive found, port = " ++ toString (i0 + k) ++ "\n")) ∘ Nat.succ) = fun k =>
        if check_type (s.ports (i0 + 1 + k)).ssts (s.ports (i0 + 1 + k)).sig
            = AHCI_DEV_NULL then
          none
        else
          some ("[AHCI] " ++
            deviceName (check_type (s.ports (i0 + 1 + k)).ssts (s.ports (i0 + 1 + k)).sig) ++
            " drive found, port = " ++ toString (i0 + 1 + k) ++ "\n") := by
      funext k
      simp only [Function.comp_apply, Nat.succ_eq_add_one]
      rw [show i0 + (k + 1) = i0 + 1 + k from by omega]
    by_cases hb : pi.testBit 0
    · rw [if_pos ((and_one_testBit pi).2 hb), logLines_visit, if_pos hb]
      by_cases hdt : check_type (s.ports i0).ssts (s.ports i0).sig = AHCI_DEV_NULL
      · rw [if_pos hdt, List.nil_append,
          List.filterMap_cons_none (by simp only [Nat.add_zero]; rw [if_pos hdt]),
          List.filter_map, testBit_comp_succ, List.filterMap_map, hcomp]
      · rw [if_neg hdt,
          List.filterMap_cons_some (by simp only [Nat.add_zero]; rw [if_neg hdt]),
          List.singleton_append, List.filter_map, testBit_comp_succ, List.filterMap_map,
          hcomp]
    · rw [if_neg (fun hc => hb ((and_one_testBit pi).1 hc)), if_neg (by simp [hb]),
        show logLines [] = [] from rfl, List.nil_append,
        List.filter_map, testBit_comp_succ, List.filterMap_map, hcomp]

/-- C5: `probe_port` invokes the classifier exactly on the ports whose bit
of the ports-implemented register is 1, in ascending index order, and its
log output has exactly one line per visited port whose classification is
not Absent, that line naming the detected device kind and the port index;
an Absent classification emits nothing. -/
theorem probe_port_enumeration (s : HbaState) :
    classifiedPorts (probe_port s) = (List.range 32).filter (fun i => s.pi.testBit i) ∧
    logLines (probe_port s) =
      ((List.range 32).filter (fun i => s.pi.testBit i)).filterMap (fun i =>
        if check_type (s.ports i).ssts (s.ports i).sig = AHCI_DEV_NULL then none
        else
          some ("[AHCI] " ++ deviceName (check_type (s.ports i).ssts (s.ports i).sig) ++
            " drive found, port = " ++ toString i ++ "\n")) := by
  constructor
  · rw [probe_port,
      show classifiedPorts (AhciEvent.readPI :: probePortIter s s.pi 0 32) =
        classifiedPorts (probePortIter s s.pi 0 32) from rfl,
      probePortIter_classified]
    simp [Nat.zero_add]
  · rw [probe_port,
      show logLines (AhciEvent.readPI :: probePortIter s s.pi 0 32) =
        logLines (probePortIter s s.pi 0 32) from rfl,
      probePortIter_logs]
    simp [Nat.zero_add]

theorem writeEvents_probePortIter (s : HbaState) :
    ∀ fuel pi i0 : Nat, writeEvents (probePortIter s pi i0 fuel) = [] := by
  intro fuel
  induction fuel with
  | zero => intro pi i0; rfl
  | succ fuel ih =>
    intro pi i0
    rw [probePortIter_step, writeEvents, List.filter_append]
    have h1 : List.filter isWriteEvent (if pi &&& 1 ≠ 0 then
        (check_typeT i0 (s.ports i0)).2 ++ logLine (check_typeT i0 (s.ports i0)).1 i0
      else []) = [] := by
      split_ifs
      · rw [List.filter_append]
        have ha : List.filter isWriteEvent (check_typeT i0 (s.ports i0)).2 = [] := by
          simp only [check_typeT]
          split <;> rfl
        have hb : List.filter isWriteEvent
            (logLine (check_typeT i0 (s.ports i0)).1 i0) = [] := by
          rw [logLine]
          split_ifs <;> rfl
        rw [ha, hb]
        rfl
      · rfl
    rw [h1, List.nil_append]
    exact ih (pi >>> 1) (i0 + 1)

theorem readPI_filter_probePortIter (s : HbaState) :
    ∀ fuel pi i0 : Nat, (probePortIter s pi i0 fuel).filter isReadPIEvent = [] := by
  intro fuel
  induction fuel with
  | zero => intro pi i0; rfl
  | succ fuel ih =>
    intro pi i0
    rw [probePortIter_step, List.filter_append]
    have h1 : List.filter isReadPIEvent (if pi &&& 1 ≠ 0 then
        (check_typeT i0 (s.ports i0)).2 ++ logLine (check_typeT i0 (s.ports i0)).1 i0
      else []) = [] := by
      split_ifs
      · rw [List.filter_append]
        have ha : List.filter isReadPIEvent (check_typeT i0 (s.ports i0)).2 = [] := by
          simp only [check_typeT]
          split <;> rfl
        have hb : List.filter isReadPIEvent
            (logLine (check_typeT i0 (s.ports i0)).1 i0) = [] := by
          rw [logLine]
          split_ifs <;> rfl
        rw [ha, hb]
        rfl
      · rfl
    rw [h1, List.nil_append]
    exact ih (pi >>> 1) (i0 + 1)

theorem portRead_mem_probePortIter (s : HbaState) :
    ∀ fuel pi i0 i : Nat,
      (AhciEvent.readSSTS i ∈ probePortIter s pi i0 fuel ∨
        AhciEvent.readSIG i ∈ probePortIter s pi i0 fuel) →
      ∃ k, k < fuel ∧ i = i0 + k ∧ pi.testBit k = true := by
  intro fuel
  induction fuel with
  | zero =>
    intro pi i0 i h
    rcases h with h | h <;> simp [probePortIter] at h
  | succ fuel ih =>
    intro pi i0 i h
    have hnext : ∀ e : AhciEvent, e ∈ probePortIter s pi i0 (fuel + 1) →
        e ∈ (if pi &&& 1 ≠ 0 then
            (check_typeT i0 (s.ports i0)).2 ++ logLine (check_typeT i0 (s.ports i0)).1 i0
          else []) ∨ e ∈ probePortIter s (pi >>> 1) (i0 + 1) fuel := by
      intro e he
      rw [probePortIter_step] at he
      exact List.mem_append.1 he
    have hchunk : ∀ e : AhciEvent,
        (e = AhciEvent.readSSTS i ∨ e = AhciEvent.readSIG i) →
        e ∈ (if pi &&& 1 ≠ 0 then
            (check_typeT i0 (s.ports i0)).2 ++ logLine (check_typeT i0 (s.ports i0)).1 i0
          else []) →
        ∃ k, k < fuel + 1 ∧ i = i0 + k ∧ pi.testBit k = true := by
      intro e hei he
      by_cases hb : pi &&& 1 ≠ 0
      · rw [if_pos hb] at he
        rcases List.mem_append.1 he with he | he
        · have hii : i = i0 := by
            revert he
            simp only [check_typeT]
            split <;> rcases hei with he2 | he2 <;> subst he2 <;> intro he <;>
              simp at he <;> omega
          exact ⟨0, by omega, by omega, (and_one_testBit pi).1 hb⟩
        · exfalso
          revert he
          rw [logLine]
          split_ifs <;> rcases hei with he2 | he2 <;> subst he2 <;> simp
      · rw [if_neg hb] at he
        simp at he
    rcases h with h | h
    · rcases hnext _ h with hc | hrest
      · exact hchunk _ (Or.inl rfl) hc
      · obtain ⟨k, hk, hi, htb⟩ := ih (pi >>> 1) (i0 + 1) i (Or.inl hrest)
        refine ⟨k + 1, by omega, by omega, ?_⟩
        rw [Nat.testBit_succ, ← Nat.shiftRight_one]
        exact htb
    · rcases hnext _ h with hc | hrest
      · exact hchunk _ (Or.inr rfl) hc
      · obtain ⟨k, hk, hi, htb⟩ := ih (pi >>> 1) (i0 + 1) i (Or.inr hrest)
        refine ⟨k + 1, by omega, by omega, ?_⟩
        rw [Nat.testBit_succ, ← Nat.shiftRight_one]
        exact htb

/-- C9: `probe_port` performs no write at all: its trace has no write
event, the ports-implemented register is read exactly once, and the only
per-port registers it reads are the status and signature words of ports
whose mask bit is set; everything else it emits is log output. -/
theorem probe_port_frame (s : HbaState) :
    writeEvents (probe_port s) = [] ∧
    readPICount (probe_port s) = 1 ∧
    (∀ i, AhciEvent.readSSTS i ∈ probe_port s → s.pi.testBit i = true) ∧
    (∀ i, AhciEvent.readSIG i ∈ probe_port s → s.pi.testBit i = true) ∧
    (∀ e, e ∈ probe_port s → e = AhciEvent.readPI ∨
      (∃ i, e = AhciEvent.readSSTS i) ∨ (∃ i, e = AhciEvent.readSIG i) ∨
      (∃ m, e = AhciEvent.logMsg m)) := by
  refine ⟨?_, ?_, ?_, ?_, ?_⟩
  · rw [probe_port, writeEvents, List.filter_cons]
    rw [if_neg (by simp [isWriteEvent])]
    exact writeEvents_probePortIter s 32 s.pi 0
  · rw [probe_port, readPICount, List.filter_cons, if_pos (by rfl),
      readPI_filter_probePortIter s 32 s.pi 0]
    rfl
  · intro i h
    rcases List.mem_cons.1 h with h | h
    · simp at h
    · obtain ⟨k, _, hi, htb⟩ := portRead_mem_probePortIter s 32 s.pi 0 i (Or.inl h)
      rw [show i = k from by omega]
      exact htb
  · intro i h
    rcases List.mem_cons.1 h with h | h
    · simp at h
    · obtain ⟨k, _, hi, htb⟩ := portRead_mem_probePortIter s 32 s.pi 0 i (Or.inr h)
      rw [show i = k from by omega]
      exact htb
  · intro e he
    rcases List.mem_cons.1 he with he | he
    · exact Or.inl he
    · have hw := writeEvents_probePortIter s 32 s.pi 0
      cases e with
      | readPI => exact Or.inl rfl
      | readSSTS i => exact Or.inr (Or.inl ⟨i, rfl⟩)
      | readSIG i => exact Or.inr (Or.inr (Or.inl ⟨i, rfl⟩))
      | logMsg m => exact Or.inr (Or.inr (Or.inr ⟨m, rfl⟩))
      | writeReg a v =>
        exfalso
        have : AhciEvent.writeReg a v ∈ writeEvents (probePortIter s s.pi 0 32) :=
          List.mem_filter.2 ⟨he, rfl⟩
        rw [hw] at this
        simp at this

/-- The end-to-end scenario of the spec: mask 0b101, port 0 a present
active SATA-signature device, port 2 a present active SATAPI-signature
device, every other port's registers zero. -/
def demoPorts : Nat → PortRegs := fun i =>
  if i = 0 then { ssts := 0x103, sig := SATA_SIG_ATA }
  else if i = 2 then { ssts := 0x103, sig := SATA_SIG_ATAPI }
  else { ssts := 0, sig := 0 }

def demoState : HbaState := { pi := 0b101, ports := demoPorts }

/-- C8: on the 0b101 scenario `probe_port` emits exactly the two expected
log lines, in order, and nothing for any other port. -/
theorem probe_port_demo_scenario :
    logLines (probe_port demoState) =
      ["[AHCI] SATA drive found, port = 0\n",
        "[AHCI] SATAPI drive found, port = 2\n"] := by
  rfl

/-! ## CommandEngineController: `start_cmd` / `stop_cmd` (ahci.c 75-106)

During these routines the port command register is hardware-owned: the
running/receive status bits may change between polls.  Each volatile read
of `port->cmd` is therefore answered by an oracle `r : Nat → Nat`,
indexed by the number of reads performed so far; loops carry explicit
fuel, `none` meaning the C code is still spinning after `fuel`
iterations. -/

/-- The `for (;;)` poll of `stop_cmd` (lines 98-105): read index `k` is
tested for FR (bit 14); when clear, read `k+1` is tested for CR (bit 15);
both clear breaks the loop, and the result is the index of the final FR
read.  Each `continue` restarts the body with fresh reads. -/
def stopCmdPoll (r : Nat → Nat) : Nat → Nat → Option Nat
  | _, 0 => none
  | k, fuel + 1 =>
    if (r k).testBit 14 then stopCmdPoll r (k + 1) fuel
    else if (r (k + 1)).testBit 15 then stopCmdPoll r (k + 2) fuel
    else some k

/-- Embedding of `stop_cmd` (lines 86-106): two read-modify-write
accesses clear ST (bit 0, mask `~1`) and then FRE (bit 4, mask `~(1<<4)`)
using reads 0 and 1 — the written values are listed in program order —
then the wait loop polls from read index 2. -/
def stop_cmd (r : Nat → Nat) (fuel : Nat) : List Nat × Option Nat :=
  ([r 0 &&& 0xFFFFFFFE, r 1 &&& 0xFFFFFFEF], stopCmdPoll r 2 fuel)

theorem stopCmdPoll_stops (r : Nat → Nat) :
    ∀ fuel k res : Nat, stopCmdPoll r k fuel = some res →
      (r res).testBit 14 = false ∧ (r (res + 1)).testBit 15 = false := by
  intro fuel
  induction fuel with
  | zero => intro k res h; simp [stopCmdPoll] at h
  | succ fuel ih =>
    intro k res h
    rw [stopCmdPoll] at h
    split_ifs at h with h1 h2
    · exact ih _ _ h
    · exact ih _ _ h
    · obtain rfl := Option.some.inj h
      exact ⟨by simpa using h1, by simpa using h2⟩

theorem stopCmdPoll_terminates (r : Nat → Nat) (N : Nat)
    (hN : ∀ k, N ≤ k → (r k).testBit 14 = false ∧ (r k).testBit 15 = false) :
    ∀ fuel k : Nat, N < k + fuel → 0 < fuel →
      ∃ res, stopCmdPoll r k fuel = some res := by
  intro fuel
  induction fuel with
  | zero => intro k _ h; omega
  | succ fuel ih =>
    intro k hlt _
    rw [stopCmdPoll]
    by_cases hk : N ≤ k
    · rw [if_neg (by simp [(hN k hk).1]), if_neg (by simp [(hN (k + 1) (by omega)).2])]
      exact ⟨k, rfl⟩
    · have hfuel : 0 < fuel := by omega
      split_ifs with h1 h2
      · exact ih (k + 1) (by omega) hfuel
      · exact ih (k + 2) (by omega) hfuel
      · exact ⟨k, rfl⟩

/-- C6: under any register model whose FR (bit 14) and CR (bit 15) bits
both read clear from poll index `N` on, `stop_cmd` terminates (fuel `N+1`
suffices), and whenever its wait loop returns, the final FR test and the
final CR test both observed a clear bit — the routine never returns while
either bit reads as set. -/
theorem stop_cmd_spec (r : Nat → Nat) (N : Nat)
    (hN : ∀ k, N ≤ k → (r k).testBit 14 = false ∧ (r k).testBit 15 = false) :
    (∃ res, (stop_cmd r (N + 1)).2 = some res) ∧
    (∀ fuel res, (stop_cmd r fuel).2 = some res →
      (r res).testBit 14 = false ∧ (r (res + 1)).testBit 15 = false) := by
  constructor
  · exact stopCmdPoll_terminates r N hN (N + 1) 2 (by omega) (by omega)
  · intro fuel res h
    exact stopCmdPoll_stops r fuel 2 res h

/-- Oracle used to witness `stop_cmd_spec`: the engine reports FR and CR
set for the first four polls, then both clear forever. -/
def demoStopReads : Nat → Nat := fun k => if k < 4 then 0xC000 else 0

theorem stop_cmd_spec_witness :
    (∃ res, (stop_cmd demoStopReads (4 + 1)).2 = some res) ∧
    (∀ fuel res, (stop_cmd demoStopReads fuel).2 = some res →
      (demoStopReads res).testBit 14 = false ∧
      (demoStopReads (res + 1)).testBit 15 = false) :=
  stop_cmd_spec demoStopReads 4 (fun k hk => by
    rw [show demoStopReads k = 0 from by rw [demoStopReads]; exact if_neg (by omega)]
    exact ⟨Nat.zero_testBit 14, Nat.zero_testBit 15⟩)

/-- The `while (port->cmd & (1 << 15))` guard of `start_cmd` (line 78):
result is the index of the first read whose CR bit is clear. -/
def startCmdPoll (r : Nat → Nat) : Nat → Nat → Option Nat
  | _, 0 => none
  | k, fuel + 1 =>
    if (r k).testBit 15 then startCmdPoll r (k + 1) fuel else some k

/-- Embedding of `start_cmd` (lines 75-84): after the guard exits at read
`k`, the statements `port->cmd |= 1 << 4` and `port->cmd |= 1` perform
reads `k+1` and `k+2` and write back those values with FRE (bit 4) and
then ST (bit 0) set; the written values are returned in program order
together with the guard's final read index. -/
def start_cmd (r : Nat → Nat) (fuel : Nat) : Option (Nat × List Nat) :=
  match startCmdPoll r 0 fuel with
  | none => none
  | some k => some (k, [r (k + 1) ||| (1 <<< 4), r (k + 2) ||| 1])

theorem startCmdPoll_some (r : Nat → Nat) :
    ∀ fuel k0 k : Nat, startCmdPoll r k0 fuel = some k →
      (r k).testBit 15 = false ∧ k0 ≤ k := by
  intro fuel
  induction fuel with
  | zero => intro k0 k h; simp [startCmdPoll] at h
  | succ fuel ih =>
    intro k0 k h
    rw [startCmdPoll] at h
    split_ifs at h with h1
    · obtain ⟨hbit, hle⟩ := ih _ _ h
      exact ⟨hbit, by omega⟩
    · obtain rfl := Option.some.inj h
      exact ⟨by simpa using h1, le_refl k0⟩

theorem startCmdPoll_terminates (r : Nat → Nat)
    (hmono : ∀ m n, m ≤ n → (r m).testBit 15 = false → (r n).testBit 15 = false)
    (j : Nat) (hj : (r j).testBit 15 = false) :
    ∀ fuel k : Nat, j < k + fuel → 0 < fuel →
      ∃ res, startCmdPoll r k fuel = some res := by
  intro fuel
  induction fuel with
  | zero => intro k _ h; omega
  | succ fuel ih =>
    intro k hlt _
    rw [startCmdPoll]
    by_cases hb : (r k).testBit 15 = true
    · have hkj : k < j := by
        by_contra hge
        rw [hmono j k (by omega) hj] at hb
        exact Bool.false_ne_true hb
      rw [if_pos hb]
      exact ih (k + 1) (by omega) (by omega)
    · rw [if_neg hb]
      exact ⟨k, rfl⟩

/-- C7: under a register model where the CR bit (bit 15), once it reads
clear, stays clear until `start_cmd` itself restarts the engine (it is
only set again by hardware in response to the ST write), `start_cmd`
terminates, the guard's final read and both read-modify-write reads see
CR clear — so the bits are never written while CR reads set — and the
two writes, in order, set FRE (bit 4) and then ST (bit 0), each leaving
every other bit of the value just read unchanged. -/
theorem start_cmd_spec (r : Nat → Nat)
    (hmono : ∀ m n, m ≤ n → (r m).testBit 15 = false → (r n).testBit 15 = false)
    (hterm : ∃ j, (r j).testBit 15 = false) :
    (∃ fuel k ws, start_cmd r fuel = some (k, ws)) ∧
    (∀ fuel k ws, start_cmd r fuel = some (k, ws) →
      (r k).testBit 15 = false ∧ (r (k + 1)).testBit 15 = false ∧
      (r (k + 2)).testBit 15 = false ∧
      ∃ a b, ws = [a, b] ∧
        a.testBit 4 = true ∧ (∀ m, m ≠ 4 → a.testBit m = (r (k + 1)).testBit m) ∧
        b.testBit 0 = true ∧ (∀ m, m ≠ 0 → b.testBit m = (r (k + 2)).testBit m)) := by
  constructor
  · obtain ⟨j, hj⟩ := hterm
    obtain ⟨k, hk⟩ := startCmdPoll_terminates r hmono j hj (j + 1) 0 (by omega) (by omega)
    exact ⟨j + 1, k, _, by rw [start_cmd, hk]⟩
  · intro fuel k ws h
    rw [start_cmd] at h
    cases hp : startCmdPoll r 0 fuel with
    | none => rw [hp] at h; exact absurd h (by simp)
    | some k0 =>
      rw [hp] at h
      have hpair := Option.some.inj h
      have hk0 : k0 = k := congrArg Prod.fst hpair
      have hws : [r (k0 + 1) ||| (1 <<< 4), r (k0 + 2) ||| 1] = ws :=
        congrArg Prod.snd hpair
      subst hk0
      have hclear := (startCmdPoll_some r fuel 0 k0 hp).1
      refine ⟨hclear, hmono k0 (k0 + 1) (by omega) hclear,
        hmono k0 (k0 + 2) (by omega) hclear, r (k0 + 1) ||| (1 <<< 4), r (k0 + 2) ||| 1,
        hws.symm, ?_, ?_, ?_, ?_⟩
      · rw [Nat.testBit_or, show Nat.testBit (1 <<< 4) 4 = true from by decide,
          Bool.or_true]
      · intro m hm
        rw [Nat.testBit_or,
          show Nat.testBit (1 <<< 4) m = false from by
            rw [show (1 <<< 4 : Nat) = 2 ^ 4 from by decide]
            exact Nat.testBit_two_pow_of_ne (fun hc => hm hc.symm),
          Bool.or_false]
      · rw [Nat.testBit_or, show Nat.testBit 1 0 = true from by decide, Bool.or_true]
      · intro m hm
        rw [Nat.testBit_or,
          show Nat.testBit 1 m = false from by
            rw [show (1 : Nat) = 2 ^ 0 from by decide]
            exact Nat.testBit_two_pow_of_ne (fun hc => hm hc.symm),
          Bool.or_false]

/-- Oracle used to witness `start_cmd_spec`: CR reads set for the first
two polls, then clear forever. -/
def demoStartReads : Nat → Nat := fun k => if k < 2 then 0x8000 else 0

theorem start_cmd_spec_witness :
    (∃ fuel k ws, start_cmd demoStartReads fuel = some (k, ws)) ∧
    (∀ fuel k ws, start_cmd demoStartReads fuel = some (k, ws) →
      (demoStartReads k).testBit 15 = false ∧
      (demoStartReads (k + 1)).testBit 15 = false ∧
      (demoStartReads (k + 2)).testBit 15 = false ∧
      ∃ a b, ws = [a, b] ∧
        a.testBit 4 = true ∧
        (∀ m, m ≠ 4 → a.testBit m = (demoStartReads (k + 1)).testBit m) ∧
        b.testBit 0 = true ∧
        (∀ m, m ≠ 0 → b.testBit m = (demoStartReads (k + 2)).testBit m)) :=
  start_cmd_spec demoStartReads
    (fun m n hmn hm => by
      by_cases hm2 : m < 2
      · exact absurd hm (by rw [show demoStartReads m = 0x8000 from by
          rw [demoStartReads]; exact if_pos hm2]; decide)
      · rw [show demoStartReads n = 0 from by rw [demoStartReads]; exact if_neg (by omega)]
        exact Nat.zero_testBit 15)
    ⟨2, by decide⟩

/-! ## PortMemoryInitializer: `port_rebase` (ahci.c 108-149)

`port_rebase` mixes register stores, `memset` calls whose destination is
the *address of a register field* (`&port->clb`, `&port->fb`,
`&cmd_header[i].ctba`), and a pointer cast of the re-read `clb` register
value (line 135), so it is embedded over a flat memory mapping byte
addresses to the 32-bit words stored there.  Every access the code
performs is 4-byte aligned; the embedding reads and writes memory in
dword units at the C object's byte address.

Modelled from the spec: the struct layouts come from `drivers/ahci.h`,
which is not among the sources.  The spec describes the adapter block as
a fixed-layout AHCI-class register region holding the 32-bit
ports-implemented register and an array of 32 fixed-layout port register
blocks, and command headers as fixed-size slots holding a
descriptor-table length and a table base (low/high halves); the standard
AHCI offsets are used: ports-implemented at byte 0x0C of the adapter
block, port `i`'s 0x80-byte block at 0x100 + 0x80*i with `clb` at +0x00,
`clbu` +0x04, `fb` +0x08, `fbu` +0x0C, `cmd` +0x18; 0x20-byte command
header slots with `prdtl` in bits 16-31 of dword 0 and `ctba`/`ctbau` at
bytes +8/+12. -/

def Mem : Type := Nat → Nat

/-- One aligned 32-bit store; the stored value is truncated to 32 bits. -/
def wr (m : Mem) (a v : Nat) : Mem :=
  fun x => if x = a then v % 2 ^ 32 else m x

/-- `memset(dst, 0, n)` with `dst` 4-aligned and `n` a multiple of 4:
dword reads inside `[a, a+n)` observe 0. -/
def memsetZero (m : Mem) (a n : Nat) : Mem :=
  fun x => if a ≤ x ∧ x < a + n then 0 else m x

/-- Byte address of port `i`'s register block. -/
def portAddr (hba i : Nat) : Nat := hba + 0x100 + 0x80 * i

/-- `stop_cmd` against plain memory (no concurrent hardware agent): the
two masking stores, then the wait loop.  With nothing changing `cmd`
between polls, the loop either breaks on its first pass or spins
forever; `none` models the latter. -/
def stop_cmdM (m : Mem) (port : Nat) : Option Mem :=
  let c := port + 0x18
  let m1 := wr m c (m c &&& 0xFFFFFFFE)
  let m2 := wr m1 c (m1 c &&& 0xFFFFFFEF)
  if (m2 c).testBit 14 then none
  else if (m2 c).testBit 15 then none
  else some m2

/-- `start_cmd` against plain memory: the guard either passes at once or
spins forever (`none`); then FRE and ST are or-ed in. -/
def start_cmdM (m : Mem) (port : Nat) : Option Mem :=
  let c := port + 0x18
  if (m c).testBit 15 then none
  else
    let m1 := wr m c (m c ||| (1 <<< 4))
    some (wr m1 c (m1 c ||| 1))

/-- ahci.c line 125: the command-list base value computed for port `i`. -/
def clb_value (i : Nat) : Nat := AHCI_BASE + (i <<< 10)

/-- ahci.c line 131: the FIS base value computed for port `i`. -/
def fb_value (i : Nat) : Nat := AHCI_BASE + (32 <<< 10) + (i <<< 8)

set_option linter.unusedVariables false in
/-- ahci.c line 140: the command-table base value computed for header
slot `slot` while rebasing port `port`.  The C expression is
`AHCI_BASE + (40 << 10) + (i << 13) + (i << 8)`, evaluated inside the
inner header loop whose counter `i` (declared at line 136) shadows the
outer port index; both shift terms therefore use the slot counter and
the port index does not occur in the value. -/
def ctba_value (port slot : Nat) : Nat :=
  AHCI_BASE + (40 <<< 10) + (slot <<< 13) + (slot <<< 8)

/-- The inner command-header loop (lines 136-143) for port `port` and
header array base `ch` (the value of `port->clb` re-read at line 135):
each slot's first dword gets `prdtl := 8` (bits 16-31), `ctba`/`ctbau`
are stored, and 256 bytes are zeroed starting at the *address of the
`ctba` field* (`memset(&cmd_header[i].ctba, 0, 256)`, line 142). -/
def cmdHeaderIter (port ch : Nat) : Nat → Nat → Mem → Mem
  | _, 0, m => m
  | slot, fuel + 1, m =>
    let a0 := ch + 0x20 * slot
    let m1 := wr m a0 ((m a0 &&& 0xFFFF) ||| (8 <<< 16))
    let m2 := wr m1 (a0 + 8) (ctba_value port slot)
    let m3 := wr m2 (a0 + 12) 0
    let m4 := memsetZero m3 (a0 + 8) 256
    cmdHeaderIter port ch (slot + 1) fuel m4

/-- The per-port body of `port_rebase` (lines 120-145): stop the engine,
store `clb`/`clbu` and zero 1024 bytes at `&port->clb`, store
`fb`/`fbu` and zero 256 bytes at `&port->fb`, re-read `clb` as the
command-header array base, run the header loop, restart the engine. -/
def rebasePort (hba i : Nat) (m : Mem) : Option Mem :=
  let port := portAddr hba i
  match stop_cmdM m port with
  | none => none
  | some m1 =>
    let m2 := wr m1 port (clb_value i)
    let m3 := wr m2 (port + 4) 0
    let m4 := memsetZero m3 port 1024
    let m5 := wr m4 (port + 8) (fb_value i)
    let m6 := wr m5 (port + 12) 0
    let m7 := memsetZero m6 (port + 8) 256
    let ch := m7 port
    let m8 := cmdHeaderIter i ch 0 32 m7
    start_cmdM m8 port

/-- The outer bit-test loop of `port_rebase` (lines 116-148). -/
def portRebaseIter (hba : Nat) : Nat → Nat → Nat → Mem → Option Mem
  | _, _, 0, m => some m
  | pi, i, fuel + 1, m =>
    match (if pi &&& 1 ≠ 0 then rebasePort hba i m else some m) with
    | none => none
    | some m2 => portRebaseIter hba (pi >>> 1) (i + 1) fuel m2

/-- Embedding of `port_rebase`: read the ports-implemented register,
then the 32-iteration loop. -/
def port_rebase (hba : Nat) (m : Mem) : Option Mem :=
  portRebaseIter hba (m (hba + 0x0C)) 0 32 m

/-- Failing-input state: adapter block at 0x1000 with ports-implemented
= 1 (only port 0), the first dword of the scratch region at `AHCI_BASE`
holding 0xDEADBEEF, port 1's `clb` register holding 0x1234, everything
else zero. -/
def rebaseDemoMem : Mem := fun a =>
  if a = 0x100C then 1
  else if a = 0x400000 then 0xDEADBEEF
  else if a = 0x1180 then 0x1234
  else 0

/-- C1 fails on the code: the command-table base computed for a header
slot is the same for every port — concretely, slot 0 of port 0 and slot 0
of port 1 both get table base 0x40A000, so their 256-byte table ranges
coincide instead of being disjoint; in general the computed value ignores
the port index entirely.  (The command-list and FIS bases, by contrast,
do depend on the port index.) -/
theorem ctba_value_ignores_port :
    ctba_value 0 0 = 0x40A000 ∧ ctba_value 1 0 = 0x40A000 ∧
    (∀ p q slot, ctba_value p slot = ctba_value q slot) ∧
    clb_value 0 ≠ clb_value 1 ∧ fb_value 0 ≠ fb_value 1 :=
  ⟨rfl, rfl, fun _ _ _ => rfl, by decide, by decide⟩

/-- C3 fails on the code: on the failing input (adapter at 0x1000, mask
1), after `port_rebase` returns, port 0's `clb` and `fb` registers both
read 0 — each was wiped by the `memset` aimed at its own address
(lines 127 and 133) — not the computed bases 0x400000 and 0x408000. -/
theorem port_rebase_wipes_base_registers :
    (port_rebase 0x1000 rebaseDemoMem).map
        (fun m => (m (portAddr 0x1000 0), m (portAddr 0x1000 0 + 8))) = some (0, 0) ∧
    clb_value 0 = 0x400000 ∧ fb_value 0 = 0x408000 :=
  ⟨rfl, rfl, rfl⟩

/-- C2 fails on the code: on the failing input the first dword of port
0's supposed command-list region (at `AHCI_BASE`, which `clb_value 0`
points to) still reads its arbitrary initial value 0xDEADBEEF after
`port_rebase` — neither zeroed nor holding a `prdtl` of 8 — because the
`memset`s target the register fields' own addresses and the header loop
writes through the re-read (already zeroed) `clb` value 0. -/
theorem port_rebase_leaves_scratch_untouched :
    (port_rebase 0x1000 rebaseDemoMem).map (fun m => m AHCI_BASE) =
      some 0xDEADBEEF ∧
    rebaseDemoMem AHCI_BASE = 0xDEADBEEF ∧ clb_value 0 = AHCI_BASE ∧
    (0xDEADBEEF : Nat) ≠ 0 ∧ ((0xDEADBEEF : Nat) >>> 16) &&& 0xFFFF ≠ 8 :=
  ⟨rfl, rfl, rfl, by decide, by decide⟩

/-- C10 fails on the code: on the failing input only port 0 is
implemented (bit 1 of the mask is clear), yet after `port_rebase` port
1's `clb` register reads 0 instead of its initial value 0x1234 — the
1024-byte `memset` at `&port->clb` of port 0 (line 127) runs across the
following port register blocks. -/
theorem port_rebase_clobbers_unimplemented_port :
    (port_rebase 0x1000 rebaseDemoMem).map (fun m => m (portAddr 0x1000 1)) =
      some 0 ∧
    rebaseDemoMem (portAddr 0x1000 1) = 0x1234 ∧
    rebaseDemoMem (0x1000 + 0x0C) = 1 ∧ Nat.testBit 1 1 = false :=
  ⟨rfl, rfl, rfl, rfl⟩

/-- Closed instance of `probe_port_frame` on the demo state: no write
event occurs, and the `ssts` read of port 0 it performs is indeed
licensed by bit 0 of the mask 0b101. -/
theorem probe_port_frame_witness :
    writeEvents (probe_port demoState) = [] ∧ Nat.testBit 0b101 0 = true :=
  ⟨(probe_port_frame demoState).1, (probe_port_frame demoState).2.2.1 0 (by decide)⟩
